import Mathlib

/-!
Shallow embedding of the chess engine (package chess, file chess.go) and of
the Slack-bot game-session layer (bot/bot.go).

A Go `Board` is a 64-byte string; we model it as a list of characters.
Coordinate arguments (Go strings such as "E1") are modelled as lists of
characters.  A Go runtime panic caused by indexing a string out of range is
modelled by an `Option` result being `none`.  All board cells and coordinate
characters in this program are ASCII, so byte-level Go string operations
coincide with character-level operations here.
-/

namespace Chess

/-- The error values produced by the chess package, tagged by the source's
`fmt.Errorf` message.  `badColumn`/`badRow` are the two `InvalidCoordinate`
shapes of `Position`. -/
inductive Err where
  | badColumn : Char → Err
  | badRow : Char → Err
  | noPieceAt : List Char → Err
  | invalidAlg : List Char → Err
  | ambiguousMove : Err
  | noMatchingMove : Err
  | noValidMove : List Char → List Char → Err
  deriving DecidableEq, Repr

/-- A Board is a 64-character string representing a chessboard, index 0 is A8. -/
abbrev Board := List Char

/-- Cell lookup `board[i]` on a Go board string.  The chess package only ever
indexes boards with positions 0..63 produced by `Position` on 64-cell boards,
so the out-of-range default is irrelevant to every theorem below (each is
stated for 64-cell boards). -/
def bget (b : Board) (i : Nat) : Char := b.getD i '?'

/-- `board[i]` at a Go `int` index (used with `indexFromCoords`). -/
def bgetI (b : Board) (i : Int) : Char := if 0 ≤ i then b.getD i.toNat '?' else '?'

/-- The raw `StartingBoard` literal of chess.go, whitespace included. -/
def StartingBoard : List Char :=
  "\nRNBQKBNR\nPPPPPPPP\n________\n________\n________\n________\npppppppp\nrnbqkbnr\n".toList

/-- `Normalize` strips all whitespace (`unicode.IsSpace`) from a board layout. -/
def Normalize (b : List Char) : List Char := b.filter (fun c => !c.isWhitespace)

/-- The normalized starting board. -/
def sb : Board := Normalize StartingBoard

/-- `strings.ToUpper` on one ASCII character. -/
def toUpperChar (c : Char) : Char :=
  if 'a' ≤ c ∧ c ≤ 'z' then Char.ofNat (c.toNat - 32) else c

/-- `strings.ToUpper` on an ASCII string. -/
def toUpper (s : List Char) : List Char := s.map toUpperChar

/-- `strings.ToLower` on one ASCII character. -/
def toLowerChar (c : Char) : Char :=
  if 'A' ≤ c ∧ c ≤ 'Z' then Char.ofNat (c.toNat + 32) else c

/-- `strings.ToLower` on an ASCII string. -/
def toLower (s : List Char) : List Char := s.map toLowerChar

/-- `Board.Position`: index of a chessboard coordinate.  The Go code indexes
`pos[0]` and `pos[1]` without a length check; `none` models the panic raised
when the accessed byte does not exist. -/
def Position (_b : Board) (pos : List Char) : Option (Except Err Nat) :=
  let pos := toUpper pos
  match pos[0]? with
  | none => none
  | some c0 =>
    if c0 < 'A' ∨ c0 > 'H' then some (.error (.badColumn c0))
    else
      match pos[1]? with
      | none => none
      | some c1 =>
        if c1 < '1' ∨ c1 > '8' then some (.error (.badRow c1))
        else some (.ok ((8 - (c1.toNat - 48)) * 8 + (c0.toNat - 65)))

/-- `Board.PieceAt`: the cell at a coordinate, propagating `Position` failures
(and, as `none`, its panics). -/
def PieceAt (b : Board) (pos : List Char) : Option (Except Err Char) :=
  match Position b pos with
  | none => none
  | some (.error e) => some (.error e)
  | some (.ok p) => some (.ok (bget b p))

/-- `Board.Replace`: a new board with cell `i` set to `r`. -/
def Replace (b : Board) (r : Char) (i : Nat) : Board := b.set i r

/-- `coordsFromIndex`: row (1..8, rank) and column (0..7) of a board index. -/
def coordsFromIndex (pos : Nat) : Int × Int := (8 - (pos : Int) / 8, (pos : Int) % 8)

/-- `indexFromCoords`: board index of a (row, column) pair. -/
def indexFromCoords (row col : Int) : Int := (8 - row) * 8 + col

/-- The `empty` helper of `validMoves`. -/
def emptyAt (b : Board) (r c : Int) : Bool := bgetI b (indexFromCoords r c) == '_'

/-- The `opponentAt` helper of `validMoves`: `piece` is the moving piece; an
uppercase mover (`piece < 'Z'`) sees lowercase cells (`o >= 'a'`) as opponents
and vice versa. -/
def opponentAt (b : Board) (piece : Char) (r c : Int) : Bool :=
  let o := bgetI b (indexFromCoords r c)
  if emptyAt b r c then false
  else if piece < 'Z' then decide ('a' ≤ o) else decide (o < 'Z')

/-- One ray of the `cruise` loops of `validMoves`: step from (r, c) in
direction (dr, dc) while on the board, collecting empty cells and stopping at
(and including) the first opponent cell.  The fuel bounds the at most eight
steps a ray can take before leaving the board. -/
def ray (b : Board) (piece : Char) (dr dc : Int) : Int → Int → Nat → List (Int × Int)
  | _, _, 0 => []
  | r, c, fuel + 1 =>
    if 1 ≤ r ∧ r ≤ 8 ∧ 0 ≤ c ∧ c ≤ 7 then
      if emptyAt b r c then (r, c) :: ray b piece dr dc (r + dr) (c + dc) fuel
      else if opponentAt b piece r c then [(r, c)] else []
    else []

/-- The four rook rays of `validMoves`, in source order. -/
def rookMoves (b : Board) (piece : Char) (or oc : Int) : List (Int × Int) :=
  ray b piece 1 0 (or + 1) oc 8 ++
  ray b piece (-1) 0 (or - 1) oc 8 ++
  ray b piece 0 1 or (oc + 1) 8 ++
  ray b piece 0 (-1) or (oc - 1) 8

/-- The four bishop rays of `validMoves`, in source order. -/
def bishopMoves (b : Board) (piece : Char) (or oc : Int) : List (Int × Int) :=
  ray b piece 1 1 (or + 1) (oc + 1) 8 ++
  ray b piece 1 (-1) (or + 1) (oc - 1) 8 ++
  ray b piece (-1) 1 (or - 1) (oc + 1) 8 ++
  ray b piece (-1) (-1) (or - 1) (oc - 1) 8

/-- `Board.validMoves`: pseudo-legal destination (row, column) pairs for the
piece at index `pos`, in the order the source appends them. -/
def validMoves (b : Board) (pos : Nat) : List (Int × Int) :=
  let rc := coordsFromIndex pos
  let or := rc.1
  let oc := rc.2
  let piece := bget b pos
  match piece with
  | 'P' =>
    if or ≠ 1 then
      (if emptyAt b (or - 1) oc then [(or - 1, oc)] else []) ++
      (if oc ≠ 0 ∧ opponentAt b piece (or - 1) (oc - 1) then [(or - 1, oc - 1)] else []) ++
      (if oc ≠ 7 ∧ opponentAt b piece (or - 1) (oc + 1) then [(or - 1, oc + 1)] else []) ++
      (if or = 7 ∧ emptyAt b (or - 2) oc then [(or - 2, oc)] else []) ++
      (if or = 4 ∧ oc ≠ 0 ∧ bgetI b (indexFromCoords or (oc - 1)) = 'p' then
        [(or - 1, oc - 1)] else []) ++
      (if or = 4 ∧ oc ≠ 7 ∧ bgetI b (indexFromCoords or (oc + 1)) = 'p' then
        [(or - 1, oc + 1)] else [])
    else []
  | 'p' =>
    if or ≠ 8 then
      (if emptyAt b (or + 1) oc then [(or + 1, oc)] else []) ++
      (if oc ≠ 0 ∧ opponentAt b piece (or + 1) (oc - 1) then [(or + 1, oc - 1)] else []) ++
      (if oc ≠ 7 ∧ opponentAt b piece (or + 1) (oc + 1) then [(or + 1, oc + 1)] else []) ++
      (if or = 2 ∧ emptyAt b (or + 2) oc then [(or + 2, oc)] else []) ++
      (if or = 5 ∧ oc ≠ 0 ∧ bgetI b (indexFromCoords or (oc - 1)) = 'P' then
        [(or + 1, oc - 1)] else []) ++
      (if or = 5 ∧ oc ≠ 7 ∧ bgetI b (indexFromCoords or (oc + 1)) = 'P' then
        [(or + 1, oc + 1)] else [])
    else []
  | 'R' => rookMoves b piece or oc
  | 'r' => rookMoves b piece or oc
  | 'B' => bishopMoves b piece or oc
  | 'b' => bishopMoves b piece or oc
  | 'N' =>
    (if (or + 2 ≤ 8 ∧ oc + 1 ≤ 7) ∧ (emptyAt b (or + 2) (oc + 1) ∨ opponentAt b piece (or + 2) (oc + 1)) then [(or + 2, oc + 1)] else []) ++
    (if (or + 2 ≤ 8 ∧ oc - 1 ≥ 0) ∧ (emptyAt b (or + 2) (oc - 1) ∨ opponentAt b piece (or + 2) (oc - 1)) then [(or + 2, oc - 1)] else []) ++
    (if (or - 2 ≥ 1 ∧ oc + 1 ≤ 7) ∧ (emptyAt b (or - 2) (oc + 1) ∨ opponentAt b piece (or - 2) (oc + 1)) then [(or - 2, oc + 1)] else []) ++
    (if (or - 2 ≥ 1 ∧ oc - 1 ≥ 0) ∧ (emptyAt b (or - 2) (oc - 1) ∨ opponentAt b piece (or - 2) (oc - 1)) then [(or - 2, oc - 1)] else []) ++
    (if (or + 1 ≤ 8 ∧ oc + 2 ≤ 7) ∧ (emptyAt b (or + 1) (oc + 2) ∨ opponentAt b piece (or + 1) (oc + 2)) then [(or + 1, oc + 2)] else []) ++
    (if (or + 1 ≤ 8 ∧ oc - 2 ≥ 0) ∧ (emptyAt b (or + 1) (oc - 2) ∨ opponentAt b piece (or + 1) (oc - 2)) then [(or + 1, oc - 2)] else []) ++
    (if (or - 1 ≥ 1 ∧ oc + 2 ≤ 7) ∧ (emptyAt b (or - 1) (oc + 2) ∨ opponentAt b piece (or - 1) (oc + 2)) then [(or - 1, oc + 2)] else []) ++
    (if (or - 1 ≥ 1 ∧ oc - 2 ≥ 0) ∧ (emptyAt b (or - 1) (oc - 2) ∨ opponentAt b piece (or - 1) (oc - 2)) then [(or - 1, oc - 2)] else [])
  | 'n' =>
    (if (or + 2 ≤ 8 ∧ oc + 1 ≤ 7) ∧ (emptyAt b (or + 2) (oc + 1) ∨ opponentAt b piece (or + 2) (oc + 1)) then [(or + 2, oc + 1)] else []) ++
    (if (or + 2 ≤ 8 ∧ oc - 1 ≥ 0) ∧ (emptyAt b (or + 2) (oc - 1) ∨ opponentAt b piece (or + 2) (oc - 1)) then [(or + 2, oc - 1)] else []) ++
    (if (or - 2 ≥ 1 ∧ oc + 1 ≤ 7) ∧ (emptyAt b (or - 2) (oc + 1) ∨ opponentAt b piece (or - 2) (oc + 1)) then [(or - 2, oc + 1)] else []) ++
    (if (or - 2 ≥ 1 ∧ oc - 1 ≥ 0) ∧ (emptyAt b (or - 2) (oc - 1) ∨ opponentAt b piece (or - 2) (oc - 1)) then [(or - 2, oc - 1)] else []) ++
    (if (or + 1 ≤ 8 ∧ oc + 2 ≤ 7) ∧ (emptyAt b (or + 1) (oc + 2) ∨ opponentAt b piece (or + 1) (oc + 2)) then [(or + 1, oc + 2)] else []) ++
    (if (or + 1 ≤ 8 ∧ oc - 2 ≥ 0) ∧ (emptyAt b (or + 1) (oc - 2) ∨ opponentAt b piece (or + 1) (oc - 2)) then [(or + 1, oc - 2)] else []) ++
    (if (or - 1 ≥ 1 ∧ oc + 2 ≤ 7) ∧ (emptyAt b (or - 1) (oc + 2) ∨ opponentAt b piece (or - 1) (oc + 2)) then [(or - 1, oc + 2)] else []) ++
    (if (or - 1 ≥ 1 ∧ oc - 2 ≥ 0) ∧ (emptyAt b (or - 1) (oc - 2) ∨ opponentAt b piece (or - 1) (oc - 2)) then [(or - 1, oc - 2)] else [])
  | 'K' =>
    (if (or - 1 ≥ 1 ∧ oc - 1 ≥ 0) ∧ (emptyAt b (or - 1) (oc - 1) ∨ opponentAt b piece (or - 1) (oc - 1)) then [(or - 1, oc - 1)] else []) ++
    (if (or - 1 ≥ 1 ∧ oc - 0 ≥ 0) ∧ (emptyAt b (or - 1) (oc - 0) ∨ opponentAt b piece (or - 1) (oc - 0)) then [(or - 1, oc - 0)] else []) ++
    (if (or - 0 ≥ 1 ∧ oc - 1 ≥ 0) ∧ (emptyAt b (or - 0) (oc - 1) ∨ opponentAt b piece (or - 0) (oc - 1)) then [(or - 0, oc - 1)] else []) ++
    (if (or + 1 ≤ 8 ∧ oc + 1 ≤ 7) ∧ (emptyAt b (or + 1) (oc + 1) ∨ opponentAt b piece (or + 1) (oc + 1)) then [(or + 1, oc + 1)] else []) ++
    (if (or + 1 ≤ 8 ∧ oc + 0 ≤ 7) ∧ (emptyAt b (or + 1) (oc + 0) ∨ opponentAt b piece (or + 1) (oc + 0)) then [(or + 1, oc + 0)] else []) ++
    (if (or + 0 ≤ 8 ∧ oc + 1 ≤ 7) ∧ (emptyAt b (or + 0) (oc + 1) ∨ opponentAt b piece (or + 0) (oc + 1)) then [(or + 0, oc + 1)] else []) ++
    (if (or + 1 ≤ 8 ∧ oc - 1 ≥ 0) ∧ (emptyAt b (or + 1) (oc - 1) ∨ opponentAt b piece (or + 1) (oc - 1)) then [(or + 1, oc - 1)] else []) ++
    (if (or - 1 ≥ 1 ∧ oc + 1 ≤ 7) ∧ (emptyAt b (or - 1) (oc + 1) ∨ opponentAt b piece (or - 1) (oc + 1)) then [(or - 1, oc + 1)] else [])
  | 'k' =>
    (if (or - 1 ≥ 1 ∧ oc - 1 ≥ 0) ∧ (emptyAt b (or - 1) (oc - 1) ∨ opponentAt b piece (or - 1) (oc - 1)) then [(or - 1, oc - 1)] else []) ++
    (if (or - 1 ≥ 1 ∧ oc - 0 ≥ 0) ∧ (emptyAt b (or - 1) (oc - 0) ∨ opponentAt b piece (or - 1) (oc - 0)) then [(or - 1, oc - 0)] else []) ++
    (if (or - 0 ≥ 1 ∧ oc - 1 ≥ 0) ∧ (emptyAt b (or - 0) (oc - 1) ∨ opponentAt b piece (or - 0) (oc - 1)) then [(or - 0, oc - 1)] else []) ++
    (if (or + 1 ≤ 8 ∧ oc + 1 ≤ 7) ∧ (emptyAt b (or + 1) (oc + 1) ∨ opponentAt b piece (or + 1) (oc + 1)) then [(or + 1, oc + 1)] else []) ++
    (if (or + 1 ≤ 8 ∧ oc + 0 ≤ 7) ∧ (emptyAt b (or + 1) (oc + 0) ∨ opponentAt b piece (or + 1) (oc + 0)) then [(or + 1, oc + 0)] else []) ++
    (if (or + 0 ≤ 8 ∧ oc + 1 ≤ 7) ∧ (emptyAt b (or + 0) (oc + 1) ∨ opponentAt b piece (or + 0) (oc + 1)) then [(or + 0, oc + 1)] else []) ++
    (if (or + 1 ≤ 8 ∧ oc - 1 ≥ 0) ∧ (emptyAt b (or + 1) (oc - 1) ∨ opponentAt b piece (or + 1) (oc - 1)) then [(or + 1, oc - 1)] else []) ++
    (if (or - 1 ≥ 1 ∧ oc + 1 ≤ 7) ∧ (emptyAt b (or - 1) (oc + 1) ∨ opponentAt b piece (or - 1) (oc + 1)) then [(or - 1, oc + 1)] else [])
  | 'Q' => rookMoves b piece or oc ++ bishopMoves b piece or oc
  | 'q' => rookMoves b piece or oc ++ bishopMoves b piece or oc
  | _ => []

/-- `Board.All`: the indices holding exactly the given piece character. -/
def All (b : Board) (piece : Char) : List Nat :=
  (List.range b.length).filter (fun i => bget b i == piece)

/-- A successful match of `AlgebraicRx` =
`([PBNRQK])([a-h])?([1-8])?(x)?([a-h][1-8])`: the piece letter, the optional
source-file and source-rank groups, the capture marker, and the two mandatory
destination characters. -/
structure AlgMatch where
  piece : Char
  srccol : Option Char
  srcrow : Option Char
  capt : Bool
  dst1 : Char
  dst2 : Char
  deriving DecidableEq, Repr

/-- Is the character in the `[a-h]` class of `AlgebraicRx`? -/
def isFile (c : Char) : Bool := decide ('a' ≤ c ∧ c ≤ 'h')

/-- Is the character in the `[1-8]` class of `AlgebraicRx`? -/
def isRank (c : Char) : Bool := decide ('1' ≤ c ∧ c ≤ '8')

/-- Match the mandatory `([a-h][1-8])` tail of `AlgebraicRx`; characters after
it are ignored, as `FindStringSubmatch` matches a substring. -/
def matchDst : List Char → Option (Char × Char)
  | c1 :: c2 :: _ => if isFile c1 ∧ isRank c2 then some (c1, c2) else none
  | _ => none

/-- Match `(x)?([a-h][1-8])`, preferring (greedily) to consume an `x`. -/
def matchX (s : List Char) : Option (Bool × Char × Char) :=
  (match s with
   | 'x' :: rest => (matchDst rest).map (fun d => (true, d.1, d.2))
   | _ => none) <|>
  (matchDst s).map (fun d => (false, d.1, d.2))

/-- Match `([1-8])?(x)?([a-h][1-8])`, preferring to consume a source rank. -/
def matchRow (s : List Char) : Option (Option Char × Bool × Char × Char) :=
  (match s with
   | c :: rest => if isRank c then (matchX rest).map (fun t => (some c, t)) else none
   | [] => none) <|>
  (matchX s).map (fun t => (none, t))

/-- Match `([a-h])?([1-8])?(x)?([a-h][1-8])`, preferring to consume a source
file. -/
def matchCol (s : List Char) : Option (Option Char × Option Char × Bool × Char × Char) :=
  (match s with
   | c :: rest => if isFile c then (matchRow rest).map (fun t => (some c, t)) else none
   | [] => none) <|>
  (matchRow s).map (fun t => (none, t))

/-- Match `AlgebraicRx` anchored at the start of `s`, with the greedy
leftmost-first preference of Go's regexp engine. -/
def matchAt (s : List Char) : Option AlgMatch :=
  match s with
  | c :: rest =>
    if c ∈ ['P', 'B', 'N', 'R', 'Q', 'K'] then
      (matchCol rest).map (fun t => ⟨c, t.1, t.2.1, t.2.2.1, t.2.2.2.1, t.2.2.2.2⟩)
    else none
  | [] => none

/-- `AlgebraicRx.FindStringSubmatch`: the leftmost match of the pattern as a
substring of `s`, or `none` when the input is malformed. -/
def findAlg : List Char → Option AlgMatch
  | [] => none
  | c :: rest => matchAt (c :: rest) <|> findAlg rest

/-- The piece character looked up by `Algebraic`: the matched uppercase letter,
shifted to lowercase (`piece += 32`) when moving for white. -/
def pieceFor (m : AlgMatch) (isWhite : Bool) : Char :=
  if isWhite then Char.ofNat (m.piece.toNat + 32) else m.piece

/-- The destination index `dst, _ := board.Position(matches[5])` of
`Algebraic`.  The error is discarded in the source; it cannot occur because
the regex guarantees a parsable coordinate. -/
def dstIndex (b : Board) (m : AlgMatch) : Nat :=
  match Position b [m.dst1, m.dst2] with
  | some (.ok p) => p
  | _ => 0

/-- The candidate source indices of `Algebraic`: all boards cells holding the
piece, kept only when they satisfy the optional source-file and source-rank
constraints. -/
def candidates (b : Board) (m : AlgMatch) (isWhite : Bool) : List Nat :=
  (All b (pieceFor m isWhite)).filter (fun p =>
    let rc := coordsFromIndex p
    (match m.srccol with
     | some sc => ((sc.toNat : Int) - 97) == rc.2
     | none => true) &&
    (match m.srcrow with
     | some sr => ((sr.toNat : Int) - 48) == rc.1
     | none => true))

/-- `fmt.Sprintf("%c%d", 'A'+scol, srow)`: the uppercase coordinate string of
a board index. -/
def srcName (p : Nat) : List Char :=
  let rc := coordsFromIndex p
  [Char.ofNat (65 + rc.2).toNat, Char.ofNat (48 + rc.1).toNat]

/-- The inner loop of `Algebraic`'s disambiguation: walk one candidate's
`validMoves` list; each entry equal to the destination trips the ambiguity
check against the current `src` (the empty string when unset) and then
records `name`. -/
def scanMoves (drow dcol : Int) (name : List Char) :
    List (Int × Int) → List Char → Except Err (List Char)
  | [], src => .ok src
  | mv :: rest, src =>
    if mv.1 == drow && mv.2 == dcol then
      if src ≠ [] then .error .ambiguousMove
      else scanMoves drow dcol name rest name
    else scanMoves drow dcol name rest src

/-- The outer loop of `Algebraic`'s disambiguation over all candidates. -/
def findSrc (b : Board) (drow dcol : Int) : List Nat → List Char → Except Err (List Char)
  | [], src => .ok src
  | p :: rest, src =>
    match scanMoves drow dcol (srcName p) (validMoves b p) src with
    | .error e => .error e
    | .ok src' => findSrc b drow dcol rest src'

/-- `Board.Algebraic`: parse a move denoted in algebraic style for the given
side, returning the source and destination coordinate strings. -/
def Algebraic (b : Board) (move : List Char) (isWhite : Bool) :
    Except Err (List Char × List Char) :=
  if move = ['O', '-', 'O'] then
    if isWhite then .ok (['E', '1'], ['G', '1']) else .ok (['E', '8'], ['G', '8'])
  else if move = ['O', '-', 'O', '-', 'O'] then
    if isWhite then .ok (['E', '1'], ['C', '1']) else .ok (['E', '8'], ['C', '8'])
  else
    match findAlg move with
    | none => .error (.invalidAlg move)
    | some m =>
      let dst := dstIndex b m
      let drc := coordsFromIndex dst
      match findSrc b drc.1 drc.2 (candidates b m isWhite) [] with
      | .error e => .error e
      | .ok [] => .error .noMatchingMove
      | .ok src => .ok (src, [m.dst1, m.dst2])

/-- Does an `Except` hold a value (Go `err == nil`)? -/
def isOkE {ε α : Type} (x : Except ε α) : Bool :=
  match x with
  | .ok _ => true
  | .error _ => false

/-- `Board.CoordsToAlgebraic`: the shortest of the three increasingly specific
candidate strings that `Algebraic` round-trips, or the can't-find error.
`none` models the panic `Position` raises on a too-short coordinate string. -/
def CoordsToAlgebraic (b : Board) (srcs dsts : List Char) :
    Option (Except Err (List Char)) :=
  match Position b srcs with
  | none => none
  | some (.error e) => some (.error e)
  | some (.ok src) =>
    match Position b dsts with
    | none => none
    | some (.error e) => some (.error e)
    | some (.ok dst) =>
      if bget b src = '_' then some (.error (.noPieceAt srcs))
      else
        let x : List Char := if bget b dst ≠ '_' then ['x'] else []
        let white : Bool := decide (bget b src ≥ 'a')
        let piece : Char :=
          if bget b src ≥ 'a' then Char.ofNat ((bget b src).toNat - 32) else bget b src
        let try1 := piece :: (x ++ toLower dsts)
        if isOkE (Algebraic b try1 white) then some (.ok try1)
        else
          let rc := coordsFromIndex src
          let cs : Char := Char.ofNat (97 + rc.2).toNat
          let try2 := piece :: cs :: (x ++ toLower dsts)
          if isOkE (Algebraic b try2 white) then some (.ok try2)
          else
            let try3 := piece :: cs :: Char.ofNat (48 + rc.1).toNat :: (x ++ toLower dsts)
            if isOkE (Algebraic b try3 white) then some (.ok try3)
            else some (.error (.noValidMove srcs dsts))

/-- `rs, _ := board.Position(...)` inside `Move`'s castling branches: the
error is discarded; the coordinate literals there always parse. -/
def posD (x : Option (Except Err Nat)) : Nat :=
  match x with
  | some (.ok p) => p
  | _ => 0

/-- `Board.Move`: geometry-only move application with castling and promotion
special cases.  Mirrors the Go signature `(Board, error)`: the pair's second
component is the error and the first is the (on error: unchanged) board;
`none` models a panic from `Position` on a too-short coordinate string. -/
def Move (b : Board) (starts0 stops0 : List Char) : Option (Board × Option Err) :=
  let starts := toUpper starts0
  let stops := toUpper stops0
  match Position b starts with
  | none => none
  | some (.error e) => some (b, some e)
  | some (.ok start) =>
    match Position b stops with
    | none => none
    | some (.error e) => some (b, some e)
    | some (.ok stop) =>
      let piece := bget b start
      if piece = '_' then some (b, some (.noPieceAt starts))
      else if piece = 'k' ∧ starts = ['E', '1'] ∧ (stops = ['G', '1'] ∨ stops = ['C', '1']) then
        let rs := if stops = ['G', '1'] then posD (Position b ['H', '1'])
                  else posD (Position b ['A', '1'])
        let re := if stops = ['G', '1'] then posD (Position b ['F', '1'])
                  else posD (Position b ['D', '1'])
        some (Replace (Replace (Replace (Replace b 'k' stop) 'r' re) '_' start) '_' rs, none)
      else if piece = 'K' ∧ starts = ['E', '8'] ∧ (stops = ['G', '8'] ∨ stops = ['C', '8']) then
        let rs := if stops = ['G', '8'] then posD (Position b ['H', '8'])
                  else posD (Position b ['A', '8'])
        let re := if stops = ['G', '8'] then posD (Position b ['F', '8'])
                  else posD (Position b ['D', '8'])
        some (Replace (Replace (Replace (Replace b 'K' stop) 'R' re) '_' start) '_' rs, none)
      else
        let piece := if piece = 'p' ∧ stops.getD 1 '?' = '8' then 'q'
                     else if piece = 'P' ∧ stops.getD 1 '?' = '1' then 'Q'
                     else piece
        some (Replace (Replace b piece stop) '_' start, none)

/-- The uppercase coordinate string of a (row, column) pair, as built by the
source's `Sprintf` calls. -/
def coordName (r c : Int) : List Char :=
  [Char.ofNat (65 + c).toNat, Char.ofNat (48 + r).toNat]

/-- `Algebraic(CoordsToAlgebraic(src, dst), sideToMove)`, propagating the
notation errors of the first step and its (unreachable here) panics. -/
def roundTrip (b : Board) (srcs dsts : List Char) (w : Bool) :
    Option (Except Err (List Char × List Char)) :=
  match CoordsToAlgebraic b srcs dsts with
  | none => none
  | some (.error e) => some (.error e)
  | some (.ok alg) => some (Algebraic b alg w)

/-- The `Game` session state of bot/bot.go.  `time.Time`/`time.Duration` are
modelled as natural-number instants/durations; Slack user names as strings. -/
structure Game where
  Board : Board
  Black : String
  White : String
  PlayingWhite : Bool
  Winner : String
  BlackOk : Bool
  WhiteOk : Bool
  TickFrom : Nat
  WhiteElapsed : Nat
  BlackElapsed : Nat
  Allowed : Bool
  Moves : List (List Char)
  Previous : List Chess.Board
  deriving DecidableEq, Repr

/-- The `take back` branch of `Incoming` (bot/bot.go): the returned flag is
true when a takeback was performed.  The posts and board drawings are the
only dropped effects. -/
def takeBack (game : Game) (user : String) : Game × Bool :=
  if game.Winner ≠ "" then (game, false)
  else if game.Previous.length < 1 then (game, false)
  else if user = game.White ∧ game.PlayingWhite = false then
    ({ game with Board := game.Previous.getD (game.Previous.length - 1) [],
                 PlayingWhite := true }, true)
  else if user = game.Black ∧ game.PlayingWhite = true then
    ({ game with Board := game.Previous.getD (game.Previous.length - 1) [],
                 PlayingWhite := false }, true)
  else (game, false)

/-- The coordinate-pair move branch of `Incoming` (bot/bot.go), from the
winner guard through the turn dispatch; `start0`/`end0` are the two matched
coordinate substrings (uppercased as in the source) and `now` the wall-clock
instant read by `time.Since`/`time.Now`.  The returned flag is true when a
move was applied; `none` models a panic propagated from the chess package. -/
def submitMove (game : Game) (user : String) (start0 end0 : List Char) (now : Nat) :
    Option (Game × Bool) :=
  if game.Winner ≠ "" then some (game, false)
  else
    let start := toUpper start0
    let stop := toUpper end0
    match CoordsToAlgebraic game.Board start stop with
    | none => none
    | some algRes =>
      let alg : List Char := match algRes with | .ok a => a | .error _ => []
      if user ≠ game.White ∧ user ≠ game.Black then some (game, false)
      else if user = game.White ∧ game.PlayingWhite = true then
        match Move game.Board start stop with
        | none => none
        | some (_, some _) => some (game, false)
        | some (b', none) =>
          some ({ game with
                   Previous := game.Previous ++ [game.Board],
                   Moves := game.Moves ++
                     [if alg ≠ [] then alg else start ++ [' '] ++ stop],
                   Board := b',
                   WhiteElapsed := game.WhiteElapsed + (now - game.TickFrom),
                   PlayingWhite := false,
                   TickFrom := now }, true)
      else if user = game.Black ∧ game.PlayingWhite = false then
        match Move game.Board start stop with
        | none => none
        | some (_, some _) => some (game, false)
        | some (b', none) =>
          some ({ game with
                   Previous := game.Previous ++ [game.Board],
                   Moves := game.Moves ++
                     [if alg ≠ [] then alg else start ++ [' '] ++ stop],
                   Board := b',
                   BlackElapsed := game.BlackElapsed + (now - game.TickFrom),
                   TickFrom := now,
                   PlayingWhite := true }, true)
      else some (game, false)

/-- The starting board with F1 and G1 cleared (the castling test fixture of
the spec). -/
def sbCleared : Board := Replace (Replace sb '_' 61) '_' 62

/-- A board with a lone black pawn on B4, a white pawn on A4 and a white rook
on A3: the pawn's ordinary diagonal capture and its same-rank-adjacent-pawn
rule both yield A3. -/
def epDupBoard : Board :=
  ((List.replicate 64 '_').set 32 'p').set 33 'P' |>.set 40 'r'

/-- A board with two rooks of the same color on A1 and H1 and nothing else. -/
def twoRooksBoard : Board := ((List.replicate 64 '_').set 56 'r').set 63 'r'

/-- A session fixture: game in progress, black ("bob") to move. -/
def gameFixA : Game :=
  { Board := sb, Black := "bob", White := "alice", PlayingWhite := false,
    Winner := "", BlackOk := true, WhiteOk := true, TickFrom := 5,
    WhiteElapsed := 7, BlackElapsed := 11, Allowed := true,
    Moves := [['N', 'f', '3']], Previous := [sb] }

/-- A session fixture: game in progress, white ("alice") to move. -/
def gameFixB : Game :=
  { Board := sb, Black := "bob", White := "alice", PlayingWhite := true,
    Winner := "", BlackOk := true, WhiteOk := true, TickFrom := 5,
    WhiteElapsed := 7, BlackElapsed := 11, Allowed := true,
    Moves := [], Previous := [] }

end Chess

instance {ε α : Type} [DecidableEq ε] [DecidableEq α] : DecidableEq (Except ε α) := fun a b =>
  match a, b with
  | .ok x, .ok y =>
    if h : x = y then .isTrue (by rw [h]) else .isFalse (by intro hc; injection hc; contradiction)
  | .error x, .error y =>
    if h : x = y then .isTrue (by rw [h]) else .isFalse (by intro hc; injection hc; contradiction)
  | .ok _, .error _ => .isFalse (by intro hc; injection hc)
  | .error _, .ok _ => .isFalse (by intro hc; injection hc)

namespace Chess

/-- Helper: `Char.toNat` after `Char.ofNat` of a valid code point. -/
theorem char_toNat_ofNat (n : Nat) (h : n.isValidChar) : (Char.ofNat n).toNat = n := by
  unfold Char.ofNat
  rw [dif_pos h]
  rfl

/-- Helper: the character order agrees with the code-point order. -/
theorem char_le_iff (a b : Char) : a ≤ b ↔ a.toNat ≤ b.toNat := by
  rw [Char.le_def, UInt32.le_def, BitVec.le_def]
  rfl

/-- Helper: the strict character order agrees with the code-point order. -/
theorem char_lt_iff (a b : Char) : a < b ↔ a.toNat < b.toNat := by
  rw [Char.lt_def, UInt32.lt_def, BitVec.lt_def]
  rfl

/-- Helper: `toUpperChar` is idempotent. -/
theorem toUpperChar_idem (c : Char) : toUpperChar (toUpperChar c) = toUpperChar c := by
  unfold toUpperChar
  by_cases h : 'a' ≤ c ∧ c ≤ 'z'
  · rw [if_pos h]
    have h97 : 97 ≤ c.toNat := (char_le_iff 'a' c).mp h.1
    have h122 : c.toNat ≤ 122 := (char_le_iff c 'z').mp h.2
    have hv : (c.toNat - 32).isValidChar := Or.inl (by omega)
    have ht : (Char.ofNat (c.toNat - 32)).toNat = c.toNat - 32 := char_toNat_ofNat _ hv
    rw [if_neg]
    intro hc
    have h2 : (97 : Nat) ≤ (Char.ofNat (c.toNat - 32)).toNat := (char_le_iff 'a' _).mp hc.1
    rw [ht] at h2
    omega
  · rw [if_neg h, if_neg h]

/-- Helper: `toUpper` is idempotent. -/
theorem toUpper_idem (s : List Char) : toUpper (toUpper s) = toUpper s := by
  unfold toUpper
  rw [List.map_map]
  exact List.map_congr_left (fun c _ => toUpperChar_idem c)

/-- Helper: `Position` only sees the uppercased input. -/
theorem Position_toUpper (b : Board) (pos : List Char) :
    Position b (toUpper pos) = Position b pos := by
  unfold Position
  rw [toUpper_idem]

/-- Helper: `Position` on an explicit two-character coordinate. -/
theorem Position_pair (b : Board) (c0 c1 : Char) :
    Position b [c0, c1] =
      (if toUpperChar c0 < 'A' ∨ toUpperChar c0 > 'H' then
         some (.error (.badColumn (toUpperChar c0)))
       else if toUpperChar c1 < '1' ∨ toUpperChar c1 > '8' then
         some (.error (.badRow (toUpperChar c1)))
       else some (.ok ((8 - ((toUpperChar c1).toNat - 48)) * 8 +
         ((toUpperChar c0).toNat - 65)))) := rfl

/-- Helper: `Position` on the empty string. -/
theorem Position_nil (b : Board) : Position b [] = none := rfl

/-- Helper: `Position` on a one-character string. -/
theorem Position_single (b : Board) (c : Char) :
    Position b [c] =
      (if toUpperChar c < 'A' ∨ toUpperChar c > 'H' then
         some (.error (.badColumn (toUpperChar c)))
       else none) := rfl

/-- Helper: reading a cell of a board after setting one. -/
theorem bget_set (l : List Char) (i j : Nat) (c : Char) (hi : i < l.length) :
    bget (l.set i c) j = if j = i then c else bget l j := by
  by_cases h : j = i
  · subst h
    simp [bget, List.getD_eq_getElem?_getD, List.getElem?_set, hi]
  · rw [if_neg h]
    simp [bget, List.getD_eq_getElem?_getD,
      List.getElem?_set_ne (fun hh => h hh.symm)]

end Chess

namespace Chess

/-- Claim C8: for every coordinate whose file is in A–H (case-insensitively,
i.e. after uppercasing) and whose rank is in 1–8, `Position` returns the
index (8−rank)*8 + (file−A); the mapping sends the 64 canonical coordinates
bijectively onto 0..63; a file outside A–H or a rank outside 1–8 fails with
the invalid-coordinate (bad column / bad row) error. -/
theorem position_formula_bijection :
    (∀ (b : Board) (f r : Char), 'A' ≤ toUpperChar f → toUpperChar f ≤ 'H' →
        '1' ≤ r → r ≤ '8' →
        Position b [f, r] =
          some (.ok ((8 - (r.toNat - 48)) * 8 + ((toUpperChar f).toNat - 65)))) ∧
    (∀ i ∈ List.range 64, Position sb (srcName i) = some (.ok i)) ∧
    (∀ (b : Board) (f r : Char), (toUpperChar f < 'A' ∨ toUpperChar f > 'H') →
        Position b [f, r] = some (.error (.badColumn (toUpperChar f)))) ∧
    (∀ (b : Board) (f r : Char), 'A' ≤ toUpperChar f → toUpperChar f ≤ 'H' →
        (toUpperChar r < '1' ∨ toUpperChar r > '8') →
        Position b [f, r] = some (.error (.badRow (toUpperChar r)))) := by
  refine ⟨?_, by decide, ?_, ?_⟩
  · intro b f r hf1 hf2 hr1 hr2
    have hru : toUpperChar r = r := by
      unfold toUpperChar
      rw [if_neg]
      intro hc
      exact absurd (le_trans hc.1 hr2) (by decide)
    rw [Position_pair, hru,
      if_neg (by push_neg; exact ⟨not_lt.mp (by simpa using hf1), not_lt.mp (by simpa using hf2)⟩),
      if_neg (by push_neg; exact ⟨not_lt.mp (by simpa using hr1), not_lt.mp (by simpa using hr2)⟩)]
  · intro b f r hf
    rw [Position_pair, if_pos hf]
  · intro b f r hf1 hf2 hr
    rw [Position_pair,
      if_neg (by push_neg; exact ⟨not_lt.mp (by simpa using hf1), not_lt.mp (by simpa using hf2)⟩),
      if_pos hr]

/-- Witness for C8 at concrete inputs: the coordinate g5 maps to 30 by the
formula, and a file outside A–H fails. -/
theorem position_formula_bijection_witness :
    Position sb ['g', '5'] =
      some (.ok ((8 - ('5'.toNat - 48)) * 8 + ((toUpperChar 'g').toNat - 65))) ∧
    Position sb ['z', '5'] = some (.error (.badColumn (toUpperChar 'z'))) :=
  ⟨position_formula_bijection.1 sb 'g' '5' (by decide) (by decide) (by decide) (by decide),
   position_formula_bijection.2.2.1 sb 'z' '5' (by decide)⟩

/-- Claim C9 (amended): `Position` panics (modelled as `none`) on the empty
string, and on a one-character string exactly when its uppercased character
lies in A–H; a one-character string with any other character returns the
bad-column error instead of panicking.  `PieceAt` and `Move` propagate the
panic. -/
theorem position_short_string_panics (b : Board) :
    Position b [] = none ∧
    (∀ c : Char, 'A' ≤ toUpperChar c → toUpperChar c ≤ 'H' → Position b [c] = none) ∧
    (∀ c : Char, (toUpperChar c < 'A' ∨ toUpperChar c > 'H') →
        Position b [c] = some (.error (.badColumn (toUpperChar c)))) ∧
    (∀ pos stops : List Char, Position b pos = none →
        PieceAt b pos = none ∧ Move b pos stops = none) := by
  refine ⟨rfl, ?_, ?_, ?_⟩
  · intro c h1 h2
    rw [Position_single,
      if_neg (by push_neg; exact ⟨not_lt.mp (by simpa using h1), not_lt.mp (by simpa using h2)⟩)]
  · intro c h
    rw [Position_single, if_pos h]
  · intro pos stops h
    constructor
    · simp [PieceAt, h]
    · have h2 : Position b (toUpper pos) = none := by rw [Position_toUpper, h]
      simp [Move, h2]

/-- Witness for C9 at concrete inputs: the empty string and the string "a"
panic; `Move` from the too-short source "E" panics. -/
theorem position_short_string_panics_witness :
    Position sb [] = none ∧ Position sb ['a'] = none ∧ Move sb ['E'] ['E', '4'] = none :=
  ⟨(position_short_string_panics sb).1,
   (position_short_string_panics sb).2.1 'a' (by decide) (by decide),
   ((position_short_string_panics sb).2.2.2 ['E'] ['E', '4']
     ((position_short_string_panics sb).2.1 'E' (by decide) (by decide))).2⟩

/-- Claim C9 counterexample: the one-character input "Z" is shorter than two
characters, yet the call does not panic — the column check rejects it first
with the bad-column error. -/
theorem position_short_string_counterexample :
    ([('Z' : Char)]).length < 2 ∧ Position sb ['Z'] = some (.error (.badColumn 'Z')) := by
  decide

/-- Claim C4 (the code contradicts it): a pawn on its home rank is offered
the two-squares-forward destination whenever the landing square is empty,
even when the square one ahead is occupied.  On the starting board with a
rook placed on A6, the pawn on A7 cannot step to A6 but is still offered A5;
symmetrically for the other side with a rook on A3 and the pawn on A2. -/
theorem pawn_double_step_ignores_blocker :
    bget (Replace sb 'r' 16) 8 = 'P' ∧
    bget (Replace sb 'r' 16) 16 = 'r' ∧
    ((6, 0) : Int × Int) ∉ validMoves (Replace sb 'r' 16) 8 ∧
    ((5, 0) : Int × Int) ∈ validMoves (Replace sb 'r' 16) 8 ∧
    bget (Replace sb 'R' 40) 48 = 'p' ∧
    bget (Replace sb 'R' 40) 40 = 'R' ∧
    ((3, 0) : Int × Int) ∉ validMoves (Replace sb 'R' 40) 48 ∧
    ((4, 0) : Int × Int) ∈ validMoves (Replace sb 'R' 40) 48 := by
  decide

/-- Claim C10: on `epDupBoard` the pawn on B4 is the only candidate for
"Pxa3", and its `validMoves` list holds the destination A3 = (3,0) twice
(once from the ordinary diagonal capture, once from the same-rank-adjacent-
pawn rule), so `Algebraic` rejects the unique move as ambiguous. -/
theorem unique_candidate_rejected_ambiguous :
    All epDupBoard 'P' = [33] ∧
    ((3, 0) : Int × Int) ∈ validMoves epDupBoard 33 ∧
    (validMoves epDupBoard 33).countP (fun mv => mv == ((3 : Int), (0 : Int))) = 2 ∧
    Algebraic epDupBoard ['P', 'x', 'a', '3'] false = .error .ambiguousMove := by
  decide

/-- Claim C1 (amended): on the starting board every pseudo-legal opening
move round-trips through the codec up to letter case: parsing the produced
string returns the uppercase canonical source and the lowercase destination
as it appears in the produced string.  Concretely CoordsToAlgebraic("G1",
"F3") yields "Nf3" and Algebraic("Nf3", true) yields ("G1", "f3"). -/
theorem opening_moves_round_trip :
    (∀ src ∈ List.range 64, ∀ mv ∈ validMoves sb src,
        roundTrip sb (srcName src) (coordName mv.1 mv.2) (decide (bget sb src ≥ 'a')) =
          some (.ok (srcName src, toLower (coordName mv.1 mv.2)))) ∧
    CoordsToAlgebraic sb ['G', '1'] ['F', '3'] = some (.ok ['N', 'f', '3']) ∧
    Algebraic sb ['N', 'f', '3'] true = .ok (['G', '1'], ['f', '3']) := by
  decide

/-- Claim C1 counterexample: `Algebraic` returns the destination in
lowercase, so the round trip does not return the uppercase pair ("G1","F3")
the claim promises. -/
theorem opening_moves_round_trip_counterexample :
    CoordsToAlgebraic sb ['G', '1'] ['F', '3'] = some (.ok ['N', 'f', '3']) ∧
    Algebraic sb ['N', 'f', '3'] true ≠ .ok (['G', '1'], ['F', '3']) := by
  decide

end Chess

namespace Chess

/-- Claim C2: on any 64-cell board, a `'k'` king moving from its home square
E1 to either castling destination (and a `'K'` king from E8) triggers the
castling special case: the king lands on the destination, the corresponding
rook character is written to the adjacent square, and both the king's and the
rook's original squares are cleared — with no check that king or rook ever
moved, or that the intervening squares were empty (the hypotheses require
only the king on its home square, nothing else about the board). -/
theorem castling_relocates_rook_without_checks (b : Board) (hlen : b.length = 64) :
    (bget b 60 = 'k' →
      Move b ['E', '1'] ['G', '1'] =
        some (Replace (Replace (Replace (Replace b 'k' 62) 'r' 61) '_' 60) '_' 63, none) ∧
      ∀ j, bget (Replace (Replace (Replace (Replace b 'k' 62) 'r' 61) '_' 60) '_' 63) j =
        if j = 63 then '_' else if j = 60 then '_' else if j = 61 then 'r'
        else if j = 62 then 'k' else bget b j) ∧
    (bget b 60 = 'k' →
      Move b ['E', '1'] ['C', '1'] =
        some (Replace (Replace (Replace (Replace b 'k' 58) 'r' 59) '_' 60) '_' 56, none) ∧
      ∀ j, bget (Replace (Replace (Replace (Replace b 'k' 58) 'r' 59) '_' 60) '_' 56) j =
        if j = 56 then '_' else if j = 60 then '_' else if j = 59 then 'r'
        else if j = 58 then 'k' else bget b j) ∧
    (bget b 4 = 'K' →
      Move b ['E', '8'] ['G', '8'] =
        some (Replace (Replace (Replace (Replace b 'K' 6) 'R' 5) '_' 4) '_' 7, none) ∧
      ∀ j, bget (Replace (Replace (Replace (Replace b 'K' 6) 'R' 5) '_' 4) '_' 7) j =
        if j = 7 then '_' else if j = 4 then '_' else if j = 5 then 'R'
        else if j = 6 then 'K' else bget b j) ∧
    (bget b 4 = 'K' →
      Move b ['E', '8'] ['C', '8'] =
        some (Replace (Replace (Replace (Replace b 'K' 2) 'R' 3) '_' 4) '_' 0, none) ∧
      ∀ j, bget (Replace (Replace (Replace (Replace b 'K' 2) 'R' 3) '_' 4) '_' 0) j =
        if j = 0 then '_' else if j = 4 then '_' else if j = 3 then 'R'
        else if j = 2 then 'K' else bget b j) := by
  refine ⟨fun hk => ⟨?_, ?_⟩, fun hk => ⟨?_, ?_⟩, fun hk => ⟨?_, ?_⟩, fun hk => ⟨?_, ?_⟩⟩ <;>
    first
    | simp [Move, Position, toUpper, toUpperChar, hk, posD]
    | · intro j
        simp only [Replace, bget, List.getD_eq_getElem?_getD, List.getElem?_set,
          List.length_set, hlen]
        split_ifs <;> first | rfl | omega

/-- Witness for C2: the spec's castling fixture — the starting board with F1
and G1 cleared; Move("E1","G1") puts the king on G1, the rook on F1, and
clears E1 and H1. -/
theorem castling_relocates_rook_witness :
    bget sbCleared 60 = 'k' ∧
    Move sbCleared ['E', '1'] ['G', '1'] =
      some (Replace (Replace (Replace (Replace sbCleared 'k' 62) 'r' 61) '_' 60) '_' 63,
        none) ∧
    bget (Replace (Replace (Replace (Replace sbCleared 'k' 62) 'r' 61) '_' 60) '_' 63) 62
      = 'k' ∧
    bget (Replace (Replace (Replace (Replace sbCleared 'k' 62) 'r' 61) '_' 60) '_' 63) 61
      = 'r' ∧
    bget (Replace (Replace (Replace (Replace sbCleared 'k' 62) 'r' 61) '_' 60) '_' 63) 60
      = '_' ∧
    bget (Replace (Replace (Replace (Replace sbCleared 'k' 62) 'r' 61) '_' 60) '_' 63) 63
      = '_' :=
  ⟨by decide,
   ((castling_relocates_rook_without_checks sbCleared (by decide)).1 (by decide)).1,
   by decide, by decide, by decide, by decide⟩

/-- Claim C3: `Move` auto-promotes a pawn reaching the farthest rank to a
queen of the pawn's color.  The spec leaves the case-to-color labeling open
(its §3/§9); in the claim's labeling the side promoting on rank 8 — the
`'p'` pawns — is "black" and the side promoting on rank 1 — `'P'` — is
"white": a `'p'` pawn on A7 moved to A8 becomes the `'q'` queen with A7
emptied, and a `'P'` pawn on H2 moved to H1 becomes the `'Q'` queen with H2
emptied; all other cells are untouched. -/
theorem pawn_auto_promotes_to_queen (b : Board) (hlen : b.length = 64) :
    (bget b 8 = 'p' →
      Move b ['A', '7'] ['A', '8'] = some (Replace (Replace b 'q' 0) '_' 8, none) ∧
      bget (Replace (Replace b 'q' 0) '_' 8) 0 = 'q' ∧
      bget (Replace (Replace b 'q' 0) '_' 8) 8 = '_' ∧
      ∀ j, j ≠ 0 → j ≠ 8 → bget (Replace (Replace b 'q' 0) '_' 8) j = bget b j) ∧
    (bget b 55 = 'P' →
      Move b ['H', '2'] ['H', '1'] = some (Replace (Replace b 'Q' 63) '_' 55, none) ∧
      bget (Replace (Replace b 'Q' 63) '_' 55) 63 = 'Q' ∧
      bget (Replace (Replace b 'Q' 63) '_' 55) 55 = '_' ∧
      ∀ j, j ≠ 63 → j ≠ 55 → bget (Replace (Replace b 'Q' 63) '_' 55) j = bget b j) := by
  constructor
  · intro hp
    refine ⟨by simp [Move, Position, toUpper, toUpperChar, hp], ?_, ?_, ?_⟩
    · simp only [Replace, bget, List.getD_eq_getElem?_getD, List.getElem?_set,
        List.length_set, hlen]
      norm_num
    · simp only [Replace, bget, List.getD_eq_getElem?_getD, List.getElem?_set,
        List.length_set, hlen]
      norm_num
    · intro j hj0 hj8
      simp only [Replace, bget, List.getD_eq_getElem?_getD, List.getElem?_set,
        List.length_set, hlen]
      split_ifs <;> first | rfl | omega
  · intro hp
    refine ⟨by simp [Move, Position, toUpper, toUpperChar, hp], ?_, ?_, ?_⟩
    · simp only [Replace, bget, List.getD_eq_getElem?_getD, List.getElem?_set,
        List.length_set, hlen]
      norm_num
    · simp only [Replace, bget, List.getD_eq_getElem?_getD, List.getElem?_set,
        List.length_set, hlen]
      norm_num
    · intro j hj63 hj55
      simp only [Replace, bget, List.getD_eq_getElem?_getD, List.getElem?_set,
        List.length_set, hlen]
      split_ifs <;> first | rfl | omega

/-- Witness for C3: the starting board with a `'p'` pawn placed on A7
promotes it moving to A8, and with a `'P'` pawn placed on H2 promotes it
moving to H1. -/
theorem pawn_auto_promotes_to_queen_witness :
    bget (Replace sb 'p' 8) 8 = 'p' ∧
    Move (Replace sb 'p' 8) ['A', '7'] ['A', '8'] =
      some (Replace (Replace (Replace sb 'p' 8) 'q' 0) '_' 8, none) ∧
    bget (Replace sb 'P' 55) 55 = 'P' ∧
    Move (Replace sb 'P' 55) ['H', '2'] ['H', '1'] =
      some (Replace (Replace (Replace sb 'P' 55) 'Q' 63) '_' 55, none) :=
  ⟨by decide,
   ((pawn_auto_promotes_to_queen (Replace sb 'p' 8) (by decide)).1 (by decide)).1,
   by decide,
   ((pawn_auto_promotes_to_queen (Replace sb 'P' 55) (by decide)).2 (by decide)).1⟩

end Chess

namespace Chess

/-- Claim C6: a takeback succeeds only when the requesting user is the
claimant of the side not on move and board history is non-empty; on success
the session's board becomes the last board-history entry and the turn flag
flips back, while the move history, the board history and both elapsed-time
accumulators are untouched (nothing is popped or reversed). -/
theorem takeback_requires_off_move_side (g : Game) (user : String) (g' : Game)
    (h : takeBack g user = (g', true)) :
    ((user = g.White ∧ g.PlayingWhite = false) ∨ (user = g.Black ∧ g.PlayingWhite = true)) ∧
    g.Previous ≠ [] ∧
    g'.Board = g.Previous.getD (g.Previous.length - 1) [] ∧
    g'.PlayingWhite = !g.PlayingWhite ∧
    g'.Moves = g.Moves ∧ g'.Previous = g.Previous ∧
    g'.WhiteElapsed = g.WhiteElapsed ∧ g'.BlackElapsed = g.BlackElapsed := by
  unfold takeBack at h
  split_ifs at h with h1 h2 h3 h4
  · exact Bool.noConfusion (congrArg Prod.snd h)
  · exact Bool.noConfusion (congrArg Prod.snd h)
  · have hg := congrArg Prod.fst h
    subst hg
    refine ⟨Or.inl h3, ?_, rfl, ?_, rfl, rfl, rfl, rfl⟩
    · intro hnil
      rw [hnil] at h2
      exact h2 (by simp)
    · rw [h3.2]
      rfl
  · have hg := congrArg Prod.fst h
    subst hg
    refine ⟨Or.inr h4, ?_, rfl, ?_, rfl, rfl, rfl, rfl⟩
    · intro hnil
      rw [hnil] at h2
      exact h2 (by simp)
    · rw [h4.2]
      rfl
  · exact Bool.noConfusion (congrArg Prod.snd h)

/-- Witness for C6: in `gameFixA` (black to move, one stored board) the white
player takes back: board restored to the stored entry, turn flipped, history
and clocks untouched. -/
theorem takeback_requires_off_move_side_witness :
    takeBack gameFixA "alice" = ((takeBack gameFixA "alice").1, true) ∧
    (takeBack gameFixA "alice").1.Board =
      gameFixA.Previous.getD (gameFixA.Previous.length - 1) [] ∧
    (takeBack gameFixA "alice").1.PlayingWhite = !gameFixA.PlayingWhite ∧
    (takeBack gameFixA "alice").1.Moves = gameFixA.Moves ∧
    (takeBack gameFixA "alice").1.Previous = gameFixA.Previous ∧
    (takeBack gameFixA "alice").1.WhiteElapsed = gameFixA.WhiteElapsed := by
  have h : takeBack gameFixA "alice" = ((takeBack gameFixA "alice").1, true) := by decide
  have hc := takeback_requires_off_move_side gameFixA "alice" (takeBack gameFixA "alice").1 h
  exact ⟨h, hc.2.2.1, hc.2.2.2.1, hc.2.2.2.2.1, hc.2.2.2.2.2.1, hc.2.2.2.2.2.2.1⟩

/-- Helper for C7: when `Move` fails, the board it returns is the receiver. -/
theorem move_error_returns_receiver (b : Board) (s1 s2 : List Char) (r : Board) (e : Err)
    (h : Move b s1 s2 = some (r, some e)) : r = b := by
  unfold Move at h
  dsimp only at h
  cases hp1 : Position b (toUpper s1) with
  | none => rw [hp1] at h; exact Option.noConfusion h
  | some x1 =>
    cases x1 with
    | error e1 =>
      rw [hp1] at h
      simp at h
      exact h.1.symm
    | ok start =>
      rw [hp1] at h
      dsimp only at h
      cases hp2 : Position b (toUpper s2) with
      | none => rw [hp2] at h; exact Option.noConfusion h
      | some x2 =>
        cases x2 with
        | error e2 =>
          rw [hp2] at h
          simp at h
          exact h.1.symm
        | ok stop =>
          rw [hp2] at h
          dsimp only at h
          split_ifs at h <;> simp at h
          exact h.1.symm

/-- Helper for C7: whenever `Move` did not panic, the `CoordsToAlgebraic`
call `submitMove` makes on the same (already uppercased) coordinate strings
does not panic either. -/
theorem coords_isSome_of_move_some (b : Board) (s1 s2 : List Char)
    (x : Board × Option Err) (h : Move b s1 s2 = some x) :
    (CoordsToAlgebraic b (toUpper s1) (toUpper s2)).isSome := by
  unfold Move at h
  dsimp only at h
  unfold CoordsToAlgebraic
  cases hp1 : Position b (toUpper s1) with
  | none => rw [hp1] at h; exact Option.noConfusion h
  | some x1 =>
    cases x1 with
    | error e1 => rfl
    | ok src =>
      rw [hp1] at h
      dsimp only at h ⊢
      cases hp2 : Position b (toUpper s2) with
      | none => rw [hp2] at h; exact Option.noConfusion h
      | some x2 =>
        cases x2 with
        | error e2 => rfl
        | ok dst =>
          dsimp only
          split_ifs <;> rfl

/-- Helper for C7: when the delegated `Move` fails, `submitMove` returns the
session unchanged (and reports no move made). -/
theorem submit_unchanged (g : Game) (user : String) (s1 s2 : List Char) (now : Nat)
    (r : Board) (e : Err)
    (h : Move g.Board (toUpper s1) (toUpper s2) = some (r, some e)) :
    submitMove g user s1 s2 now = some (g, false) := by
  have hsome : (CoordsToAlgebraic g.Board (toUpper s1) (toUpper s2)).isSome := by
    have h2 := coords_isSome_of_move_some g.Board (toUpper s1) (toUpper s2) (r, some e) h
    rw [toUpper_idem, toUpper_idem] at h2
    exact h2
  unfold submitMove
  by_cases hw : g.Winner ≠ ""
  · rw [if_pos hw]
  · rw [if_neg hw]
    dsimp only
    cases hc : CoordsToAlgebraic g.Board (toUpper s1) (toUpper s2) with
    | none => rw [hc] at hsome; exact Bool.noConfusion hsome
    | some algRes =>
      dsimp only
      by_cases hu : user ≠ g.White ∧ user ≠ g.Black
      · rw [if_pos hu]
      · rw [if_neg hu]
        by_cases hwt : user = g.White ∧ g.PlayingWhite = true
        · rw [if_pos hwt, h]
        · rw [if_neg hwt]
          by_cases hbt : user = g.Black ∧ g.PlayingWhite = false
          · rw [if_pos hbt, h]
          · rw [if_neg hbt]

/-- Claim C7: failing calls leave state unchanged — `Move` returns its
receiver board untouched together with the error, and when the delegated
board mutation fails, `submitMove` leaves the whole session (board, move
history, board history, turn flag, clocks) exactly as it was. -/
theorem failing_calls_leave_state_unchanged :
    (∀ (b : Board) (s1 s2 : List Char) (r : Board) (e : Err),
        Move b s1 s2 = some (r, some e) → r = b) ∧
    (∀ (g : Game) (user : String) (s1 s2 : List Char) (now : Nat) (r : Board) (e : Err),
        Move g.Board (toUpper s1) (toUpper s2) = some (r, some e) →
        submitMove g user s1 s2 now = some (g, false)) :=
  ⟨fun b s1 s2 r e h => move_error_returns_receiver b s1 s2 r e h,
   fun g user s1 s2 now r e h => submit_unchanged g user s1 s2 now r e h⟩

/-- Witness for C7: moving from the empty square E3 fails with the
no-piece-at-source error, returns the starting board unchanged, and leaves
the `gameFixB` session unchanged. -/
theorem failing_calls_leave_state_unchanged_witness :
    Move sb ['E', '3'] ['E', '4'] = some (sb, some (.noPieceAt ['E', '3'])) ∧
    submitMove gameFixB "alice" ['E', '3'] ['E', '4'] 9 = some (gameFixB, false) :=
  ⟨by decide,
   failing_calls_leave_state_unchanged.2 gameFixB "alice" ['E', '3'] ['E', '4'] 9 sb
     (.noPieceAt ['E', '3']) (by decide)⟩

end Chess

namespace Chess

/-- Helper: the coordinate string built for a matching candidate is never the
empty string (the loop's unset marker). -/
theorem srcName_ne_nil (p : Nat) : srcName p ≠ [] := by simp [srcName]

/-- Helper: a destination is in a move list iff the loop's equality test
succeeds a positive number of times on that list. -/
theorem pair_mem_iff (l : List (Int × Int)) (dr dc : Int) :
    (dr, dc) ∈ l ↔ 0 < l.countP (fun mv => mv.1 == dr && mv.2 == dc) := by
  rw [List.countP_pos_iff]
  constructor
  · intro hm
    exact ⟨(dr, dc), hm, by simp⟩
  · rintro ⟨⟨m1, m2⟩, hm, hp⟩
    simp only [Bool.and_eq_true, beq_iff_eq] at hp
    obtain ⟨h1, h2⟩ := hp
    subst h1
    subst h2
    exact hm

/-- Helper: scanning a move list without an occurrence of the destination
leaves the recorded source unchanged. -/
theorem scanMoves_no_hit (dr dc : Int) (name : List Char) (mvs : List (Int × Int))
    (src : List Char) (h : mvs.countP (fun mv => mv.1 == dr && mv.2 == dc) = 0) :
    scanMoves dr dc name mvs src = .ok src := by
  induction mvs generalizing src with
  | nil => rfl
  | cons mv rest ih =>
    rw [List.countP_cons] at h
    by_cases hmv : (mv.1 == dr && mv.2 == dc) = true
    · rw [if_pos hmv] at h
      omega
    · rw [if_neg hmv] at h
      unfold scanMoves
      rw [if_neg (by simpa using hmv)]
      exact ih src (by omega)

/-- Helper: scanning a move list holding the destination while a source is
already recorded fails with the ambiguity error. -/
theorem scanMoves_src_set (dr dc : Int) (name : List Char) (mvs : List (Int × Int))
    (src : List Char) (hsrc : src ≠ [])
    (h : 0 < mvs.countP (fun mv => mv.1 == dr && mv.2 == dc)) :
    scanMoves dr dc name mvs src = .error .ambiguousMove := by
  induction mvs with
  | nil => simp at h
  | cons mv rest ih =>
    rw [List.countP_cons] at h
    unfold scanMoves
    by_cases hmv : (mv.1 == dr && mv.2 == dc) = true
    · rw [if_pos (by simpa using hmv), if_pos hsrc]
    · rw [if_neg hmv] at h
      rw [if_neg (by simpa using hmv)]
      exact ih (by omega)

/-- Helper: a move list holding the destination at least twice always trips
the ambiguity error, whatever source was recorded before. -/
theorem scanMoves_two_hits (dr dc : Int) (name : List Char) (mvs : List (Int × Int))
    (src : List Char) (hname : name ≠ [])
    (h : 2 ≤ mvs.countP (fun mv => mv.1 == dr && mv.2 == dc)) :
    scanMoves dr dc name mvs src = .error .ambiguousMove := by
  induction mvs generalizing src with
  | nil => simp at h
  | cons mv rest ih =>
    rw [List.countP_cons] at h
    unfold scanMoves
    by_cases hmv : (mv.1 == dr && mv.2 == dc) = true
    · rw [if_pos hmv] at h
      rw [if_pos (by simpa using hmv)]
      by_cases hsrc : src ≠ []
      · rw [if_pos hsrc]
      · rw [if_neg hsrc]
        exact scanMoves_src_set dr dc name rest name hname (by omega)
    · rw [if_neg hmv] at h
      rw [if_neg (by simpa using hmv)]
      exact ih src (by omega)

/-- Helper: a move list holding the destination exactly once records the
candidate's name starting from the unset marker. -/
theorem scanMoves_one_hit (dr dc : Int) (name : List Char) (mvs : List (Int × Int))
    (h : mvs.countP (fun mv => mv.1 == dr && mv.2 == dc) = 1) :
    scanMoves dr dc name mvs [] = .ok name := by
  induction mvs with
  | nil => simp at h
  | cons mv rest ih =>
    rw [List.countP_cons] at h
    unfold scanMoves
    by_cases hmv : (mv.1 == dr && mv.2 == dc) = true
    · rw [if_pos hmv] at h
      rw [if_pos (by simpa using hmv), if_neg (by simp)]
      exact scanMoves_no_hit dr dc name rest name (by omega)
    · rw [if_neg hmv] at h
      rw [if_neg (by simpa using hmv)]
      exact ih (by omega)

/-- Helper: when no candidate's move list holds the destination, the
candidate loop leaves the recorded source unchanged. -/
theorem findSrc_no_candidates (b : Board) (dr dc : Int) (cands : List Nat) (src : List Char)
    (h : ∀ p ∈ cands,
      (validMoves b p).countP (fun mv => mv.1 == dr && mv.2 == dc) = 0) :
    findSrc b dr dc cands src = .ok src := by
  induction cands generalizing src with
  | nil => rfl
  | cons p rest ih =>
    unfold findSrc
    rw [scanMoves_no_hit dr dc (srcName p) (validMoves b p) src
      (h p (List.mem_cons_self p rest))]
    dsimp only
    exact ih src (fun q hq => h q (List.mem_cons_of_mem p hq))

/-- Helper: once a source is recorded, any further candidate whose move list
holds the destination trips the ambiguity error. -/
theorem findSrc_src_set (b : Board) (dr dc : Int) (cands : List Nat) (src : List Char)
    (hsrc : src ≠ [])
    (h : ∃ p ∈ cands, 0 < (validMoves b p).countP (fun mv => mv.1 == dr && mv.2 == dc)) :
    findSrc b dr dc cands src = .error .ambiguousMove := by
  induction cands with
  | nil => simp at h
  | cons p rest ih =>
    unfold findSrc
    by_cases hp : 0 < (validMoves b p).countP (fun mv => mv.1 == dr && mv.2 == dc)
    · rw [scanMoves_src_set dr dc (srcName p) (validMoves b p) src hsrc hp]
    · rw [scanMoves_no_hit dr dc (srcName p) (validMoves b p) src (Nat.eq_zero_of_not_pos hp)]
      dsimp only
      apply ih
      rcases h with ⟨q, hq, hqpos⟩
      rcases List.mem_cons.mp hq with rfl | hq'
      · exact absurd hqpos hp
      · exact ⟨q, hq', hqpos⟩

/-- Helper: two (candidate, occurrence) hits — in particular two distinct
candidates reaching the destination — make the candidate loop fail with the
ambiguity error. -/
theorem findSrc_two_candidates (b : Board) (dr dc : Int) (cands : List Nat)
    (h : 2 ≤ cands.countP (fun p =>
      decide (0 < (validMoves b p).countP (fun mv => mv.1 == dr && mv.2 == dc)))) :
    findSrc b dr dc cands [] = .error .ambiguousMove := by
  induction cands with
  | nil => simp at h
  | cons p rest ih =>
    rw [List.countP_cons] at h
    unfold findSrc
    by_cases hp : 0 < (validMoves b p).countP (fun mv => mv.1 == dr && mv.2 == dc)
    · rw [if_pos (decide_eq_true hp)] at h
      rcases Nat.lt_or_ge 1 ((validMoves b p).countP (fun mv => mv.1 == dr && mv.2 == dc))
        with hgt | hle
      · rw [scanMoves_two_hits dr dc (srcName p) (validMoves b p) [] (srcName_ne_nil p) hgt]
      · rw [scanMoves_one_hit dr dc (srcName p) (validMoves b p) (by omega)]
        dsimp only
        apply findSrc_src_set b dr dc rest (srcName p) (srcName_ne_nil p)
        have hrest : 0 < rest.countP (fun q =>
            decide (0 < (validMoves b q).countP (fun mv => mv.1 == dr && mv.2 == dc))) := by
          omega
        rcases List.countP_pos_iff.mp hrest with ⟨q, hq, hqd⟩
        exact ⟨q, hq, of_decide_eq_true hqd⟩
    · rw [if_neg (by simpa using hp)] at h
      rw [scanMoves_no_hit dr dc (srcName p) (validMoves b p) [] (Nat.eq_zero_of_not_pos hp)]
      dsimp only
      exact ih (by omega)

/-- Claim C5: on every board and well-formed non-castling move string,
`Algebraic` fails with the no-matching-move error when zero candidate source
pieces (those matching the piece letter and any given source file/rank
constraints) have the destination in their `validMoves` set, fails with the
ambiguous-move error whenever more than one does (never silently picking
one), and fails with the invalid-input error when the string does not match
the move pattern. -/
theorem algebraic_error_classification (b : Board) (move : List Char) (isWhite : Bool)
    (hOO : move ≠ ['O', '-', 'O']) (hOOO : move ≠ ['O', '-', 'O', '-', 'O']) :
    (findAlg move = none → Algebraic b move isWhite = .error (.invalidAlg move)) ∧
    (∀ m, findAlg move = some m →
      ((candidates b m isWhite).countP
          (fun p => decide (coordsFromIndex (dstIndex b m) ∈ validMoves b p)) = 0 →
        Algebraic b move isWhite = .error .noMatchingMove) ∧
      (2 ≤ (candidates b m isWhite).countP
          (fun p => decide (coordsFromIndex (dstIndex b m) ∈ validMoves b p)) →
        Algebraic b move isWhite = .error .ambiguousMove)) := by
  constructor
  · intro hnone
    unfold Algebraic
    rw [if_neg hOO, if_neg hOOO, hnone]
  · intro m hm
    have hconv : ∀ (cands : List Nat),
        cands.countP (fun p => decide (coordsFromIndex (dstIndex b m) ∈ validMoves b p)) =
        cands.countP (fun p => decide (0 < (validMoves b p).countP
          (fun mv => mv.1 == (coordsFromIndex (dstIndex b m)).1 &&
                     mv.2 == (coordsFromIndex (dstIndex b m)).2))) := by
      intro cands
      apply List.countP_congr
      intro p _
      simp only [decide_eq_true_eq]
      exact pair_mem_iff (validMoves b p) (coordsFromIndex (dstIndex b m)).1
        (coordsFromIndex (dstIndex b m)).2
    constructor
    · intro h0
      rw [hconv] at h0
      unfold Algebraic
      rw [if_neg hOO, if_neg hOOO, hm]
      dsimp only
      rw [findSrc_no_candidates b (coordsFromIndex (dstIndex b m)).1
        (coordsFromIndex (dstIndex b m)).2 (candidates b m isWhite) []
        (fun p hp => Nat.eq_zero_of_not_pos
          (fun hpos => by
            have hz := List.countP_eq_zero.mp h0 p hp
            exact hz (decide_eq_true hpos)))]
    · intro h2
      rw [hconv] at h2
      unfold Algebraic
      rw [if_neg hOO, if_neg hOOO, hm]
      dsimp only
      rw [findSrc_two_candidates b (coordsFromIndex (dstIndex b m)).1
        (coordsFromIndex (dstIndex b m)).2 (candidates b m isWhite) h2]

/-- Witness for C5: the malformed string "zz" is rejected as invalid; "Qh5"
on the starting board (the queen is boxed in) has zero reaching candidates
and fails no-matching-move; "Rd1" on `twoRooksBoard` (two identical rooks
both reaching the empty square d1) fails ambiguous-move. -/
theorem algebraic_error_classification_witness :
    Algebraic sb ['z', 'z'] true = .error (.invalidAlg ['z', 'z']) ∧
    Algebraic sb ['Q', 'h', '5'] true = .error .noMatchingMove ∧
    Algebraic twoRooksBoard ['R', 'd', '1'] true = .error .ambiguousMove :=
  ⟨(algebraic_error_classification sb ['z', 'z'] true (by decide) (by decide)).1 (by decide),
   ((algebraic_error_classification sb ['Q', 'h', '5'] true (by decide) (by decide)).2
      ⟨'Q', none, none, false, 'h', '5'⟩ (by decide)).1 (by decide),
   ((algebraic_error_classification twoRooksBoard ['R', 'd', '1'] true (by decide)
      (by decide)).2 ⟨'R', none, none, false, 'd', '1'⟩ (by decide)).2 (by decide)⟩

end Chess

namespace Chess

/-- Witness for C1 at a concrete opening move: the knight move G1 to F3
(source index 62, destination row 3 column 5). -/
theorem opening_moves_round_trip_witness :
    roundTrip sb (srcName 62) (coordName 3 5) (decide (bget sb 62 ≥ 'a')) =
      some (.ok (srcName 62, toLower (coordName 3 5))) :=
  opening_moves_round_trip.1 62 (by decide) (3, 5) (by decide)

end Chess
